import Mathlib

/-!
Verification of `run_on_filechange` (src/main.rs): a tool that watches
directories and re-runs a shell command on filesystem changes, with an
8000 ms debounce and process-group termination of the previous run.

The event loop (lines 54-105 of main.rs) is embedded as a step function
on an explicit loop state, driven by an input list that supplies, per
iteration, the item received from the channel, the current monotone clock
reading (milliseconds), the outcome of the OS spawn call and of the OS
kill call.  Side effects (signals, waits, sleeps, spawns, log lines) are
recorded in an effect trace.  CLI parsing (lines 26-43) is embedded as a
pure function of the argument vector and a directory predicate.
-/

namespace RunOnFilechange

/-- Event kinds of the `notify` crate as matched at main.rs lines 60-66:
the code matches `Create(_) | Modify(_) | Remove(_)` and ignores every
other kind (`Any`, `Access(_)`, `Other`).  Payloads are matched with a
wildcard in the source, so they are dropped here. -/
inductive EventKind
  | create
  | modify
  | remove
  | access
  | any
  | other
  deriving DecidableEq

/-- The guard at main.rs lines 61-64: `matches!(kind, EventKind::Create(_)
| EventKind::Modify(_) | EventKind::Remove(_))`. -/
def EventKind.isTrigger : EventKind → Bool
  | .create => true
  | .modify => true
  | .remove => true
  | _ => false

/-- One item received from the watcher channel (`rx.recv()` yields
`Result<Event, notify::Error>`, main.rs lines 58-59): either an event
carrying a kind, or a watcher error carrying a message. -/
inductive RecvItem
  | ok (kind : EventKind)
  | err (msg : String)
  deriving DecidableEq

/-- A managed child process handle (`std::process::Child`): the embedding
keeps the leader's OS process id (`Child::id`, a `u32`). -/
structure Child where
  pid : Nat
  deriving DecidableEq

/-- Stream configuration for the spawned command; main.rs lines 92-93 use
`Stdio::inherit()` for both standard output and standard error. -/
inductive StreamCfg
  | inherit
  | piped
  | null
  deriving DecidableEq

/-- Signals sent by the tool; only `SIGTERM` appears (main.rs line 80). -/
inductive Sig
  | SIGTERM
  deriving DecidableEq

/-- The full specification of an OS process spawn as built at main.rs
lines 87-100: interpreter program, argument list, stream configuration,
and the `pre_exec` hook, recorded as the argument pair passed to
`libc::setpgid` in the child after `fork` and before `exec`. -/
structure SpawnSpec where
  program : String
  args : List String
  stdout : StreamCfg
  stderr : StreamCfg
  preExecSetpgidArgs : Option (Nat × Nat)
  deriving DecidableEq

/-- The spawn performed on every accepted trigger (main.rs lines 87-100):
`Command::new("/bin/sh").arg("-c").arg(&cmd_string)` with inherited
stdout/stderr and a `pre_exec` hook running `libc::setpgid(0, 0)`. -/
def spawnCommand (cmdString : String) : SpawnSpec :=
  { program := "/bin/sh"
    args := ["-c", cmdString]
    stdout := .inherit
    stderr := .inherit
    preExecSetpgidArgs := some (0, 0) }

/-- Observable side effects of one pass through the event loop, in
program order. `logMsg` is the `log` helper (timestamp prefix elided),
`sendSignal` is `nix::sys::signal::kill` with the raw target pid value,
`waitChild` is `Child::wait`, `sleepMs` is `std::thread::sleep`, and
`spawned` is a successful `Command::spawn` returning the new leader's
process id. -/
inductive Effect
  | logMsg (msg : String)
  | sendSignal (target : Int) (sig : Sig)
  | waitChild (pid : Nat)
  | sleepMs (ms : Nat)
  | spawned (spec : SpawnSpec) (pid : Nat)
  deriving DecidableEq

/-- The cast `c.id() as i32` of main.rs line 79: a `u32` value reduced
modulo `2^32` and reinterpreted as a signed 32-bit integer. -/
def u32ToI32 (n : Nat) : Int :=
  let m : Nat := n % 2 ^ 32
  if m < 2 ^ 31 then (m : Int) else (m : Int) - 2 ^ 32

/-- The loop state of main.rs lines 54-56: `last_event: Option<Instant>`
(milliseconds of a monotone clock) and `child: Option<Child>`. -/
structure LoopState where
  lastEvent : Option Nat
  child : Option Child
  deriving DecidableEq

/-- `let debounce = Duration::from_millis(8_000)` (main.rs line 55). -/
def debounceMs : Nat := 8000

/-- Grace sleep after reaping (main.rs line 82), in milliseconds. -/
def graceMs : Nat := 700

/-- The debounce test of main.rs lines 69-73: with a previous accepted
instant `t`, the event is rejected when `t.elapsed() < debounce`, where
`elapsed` is the (saturating) difference of the monotone clock. With no
previous instant nothing is rejected. -/
def debounceReject (lastEvent : Option Nat) (now : Nat) : Bool :=
  match lastEvent with
  | some t => decide (now - t < debounceMs)
  | none => false

/-- Per-iteration oracle input: the channel item, the monotone clock
reading `now` (milliseconds) taken at this iteration, the OS result of
`Command::spawn` (`some pid` on success, `none` on OS-level failure),
and whether the `kill` call would succeed (its `Result` is discarded by
`.ok()` at main.rs line 80, so this input must be irrelevant). -/
structure IterInput where
  item : RecvItem
  now : Nat
  spawnResult : Option Nat
  killOk : Bool
  deriving DecidableEq

/-- Result of one pass through the loop body: `next st` continues the
`while let` loop with state `st`; `fail` is the `?` operator at main.rs
line 100 propagating a spawn error out of `main`. -/
inductive StepOutcome
  | next (st : LoopState)
  | fail
  deriving DecidableEq

/-- What one pass through the loop body produced: its effect trace, the
instant recorded as accepted trigger (`last_event = Some(Instant::now())`
at main.rs line 74, `none` when the iteration discarded the item), and
the control outcome. -/
structure StepResult where
  effects : List Effect
  acceptedAt : Option Nat
  outcome : StepOutcome
  deriving DecidableEq

/-- The accepted-trigger path, main.rs lines 74-101: record `now` as
`last_event`, log, terminate the previous child if any — `kill` with
target `-(c.id() as i32)` (the process-group id), result discarded, then
`c.wait()`, then a 700 ms sleep — log the command, and spawn. A spawn
failure propagates (`?`), ending the program after the effects so far. -/
def acceptStep (cmdString : String) (st : LoopState) (inp : IterInput) : StepResult :=
  let killEffs : List Effect :=
    match st.child with
    | some c =>
        [Effect.sendSignal (-(u32ToI32 c.pid)) Sig.SIGTERM,
         Effect.waitChild c.pid,
         Effect.sleepMs graceMs]
    | none => []
  let preEffs : List Effect :=
    Effect.logMsg "File change detected" ::
      killEffs ++ [Effect.logMsg ("Executing: " ++ cmdString)]
  match inp.spawnResult with
  | none => ⟨preEffs, some inp.now, StepOutcome.fail⟩
  | some pid =>
      ⟨preEffs ++ [Effect.spawned (spawnCommand cmdString) pid],
       some inp.now,
       StepOutcome.next ⟨some inp.now, some ⟨pid⟩⟩⟩

/-- One pass through the loop body of main.rs lines 58-104: a watcher
error is logged and the loop continues unchanged (line 103); an event of
a non-trigger kind is discarded (lines 61-66); a debounced event is
discarded (lines 69-73); an accepted event runs `acceptStep`. -/
def stepEvent (cmdString : String) (st : LoopState) (inp : IterInput) : StepResult :=
  match inp.item with
  | .err e => ⟨[Effect.logMsg ("Watcher error: " ++ e)], none, StepOutcome.next st⟩
  | .ok kind =>
      if kind.isTrigger = false then ⟨[], none, StepOutcome.next st⟩
      else if debounceReject st.lastEvent inp.now then ⟨[], none, StepOutcome.next st⟩
      else acceptStep cmdString st inp

/-- How the `while let Ok(event) = rx.recv()` loop ends: `closed st` is
the channel closing (the `while let` falls through to `Ok(())` at main.rs
line 106); `spawnFailed` is the `?` at line 100 propagating an error out
of `main`. -/
inductive RunOutcome
  | closed (st : LoopState)
  | spawnFailed
  deriving DecidableEq

/-- A whole run: the concatenated effect trace, the list of accepted
trigger instants in order, how many channel items were consumed, and how
the loop ended. -/
structure RunResult where
  effects : List Effect
  accepted : List Nat
  consumed : Nat
  outcome : RunOutcome
  deriving DecidableEq

/-- The event loop of main.rs lines 58-105, driven by the finite list of
items the channel delivers before closing (with their oracle data). -/
def runLoop (cmdString : String) (st : LoopState) : List IterInput → RunResult
  | [] => ⟨[], [], 0, RunOutcome.closed st⟩
  | inp :: rest =>
      match stepEvent cmdString st inp with
      | ⟨effs, acc, StepOutcome.fail⟩ =>
          ⟨effs, acc.toList, 1, RunOutcome.spawnFailed⟩
      | ⟨effs, acc, StepOutcome.next st'⟩ =>
          let r := runLoop cmdString st' rest
          ⟨effs ++ r.effects, acc.toList ++ r.accepted, r.consumed + 1, r.outcome⟩

/-- Process exit code determined by the value `main` returns: Rust maps
`Ok(())` to exit code 0 and `Err(_)` from `fn main() -> Result<...>` to a
nonzero exit code (1). -/
def exitCodeOf : RunOutcome → Nat
  | RunOutcome.closed _ => 0
  | RunOutcome.spawnFailed => 1

/-- Outcome of the startup code of main.rs lines 26-43: either
`std::process::exit(1)` with a message on standard error, or proceeding
to watch with the command string and the directory list. -/
inductive CliResult
  | exitWith (code : Nat) (stderrMsg : String)
  | proceed (cmdString : String) (paths : List String)
  deriving DecidableEq

/-- Usage text printed when the command argument is missing
(main.rs line 28). -/
def usageMsg : String :=
  "Usage:\n  run_on_filechange \x22<command>\x22 <dir1> [dir2] …"

/-- Error printed when no directory argument is given (main.rs line 33). -/
def noDirsMsg : String := "Error: at least one directory must be given."

/-- Error printed when a path is not a directory (main.rs line 40);
`\x7b:?\x7d` on a `PathBuf` renders the path quoted. -/
def notDirMsg (p : String) : String :=
  "Error: \x22" ++ p ++ "\x22 is not a directory."

/-- CLI parsing and validation, main.rs lines 26-43: skip the program
name; a missing command prints usage and exits 1; an empty directory
list prints an error and exits 1; the first path failing `is_dir` prints
an error and exits 1; otherwise proceed. `isDir` abstracts the
filesystem test `Path::is_dir`. -/
def parseCli (argv : List String) (isDir : String → Bool) : CliResult :=
  match argv.drop 1 with
  | [] => CliResult.exitWith 1 usageMsg
  | cmdString :: dirs =>
      if dirs.isEmpty then CliResult.exitWith 1 noDirsMsg
      else
        match dirs.find? (fun p => !isDir p) with
        | some p => CliResult.exitWith 1 (notDirMsg p)
        | none => CliResult.proceed cmdString dirs

/-- POSIX semantics of `setpgid(pidArg, pgidArg)` as called by the
`pre_exec` hook in the child whose process id is `selfPid`: `pidArg = 0`
designates the calling process, `pgidArg = 0` makes the target its own
group leader; the value is the resulting process-group id of the child.
This models the OS call, not repository code. -/
def setpgidResultPgid (selfPid : Nat) (pidArg : Nat) (pgidArg : Nat) : Nat :=
  let target := if pidArg = 0 then selfPid else pidArg
  if pgidArg = 0 then target else pgidArg

/-- Child-accounting automaton over an effect trace, tracking the live
(spawned, not yet reaped) child as `some (pid, signalled)`.  It rejects
(`none`) a spawn while a child is live, a signal whose target is not the
live child's process group, a signal or wait with no live child, and a
wait before the group signal was sent.  Running it to completion
certifies: at most one child is live at every point, and every spawn
after a prior one happens only after the prior was signalled and
reaped. -/
def childTrack (cur : Option (Nat × Bool)) : Effect → Option (Option (Nat × Bool))
  | .logMsg _ => some cur
  | .sleepMs _ => some cur
  | .sendSignal t _ =>
      match cur with
      | some (p, _) => if t = -(u32ToI32 p) then some (some (p, true)) else none
      | none => none
  | .waitChild p =>
      match cur with
      | some (q, sig) => if q = p ∧ sig = true then some none else none
      | none => none
  | .spawned _ p =>
      match cur with
      | none => some (some (p, false))
      | some _ => none

/-- `childTrack` iterated over a trace. -/
def childTrackRun (cur : Option (Nat × Bool)) : List Effect → Option (Option (Nat × Bool))
  | [] => some cur
  | e :: rest =>
      match childTrack cur e with
      | some cur' => childTrackRun cur' rest
      | none => none

/-- Abstraction of the loop state for the child-accounting automaton: a
stored child is live and not yet signalled. -/
def childAbs (st : LoopState) : Option (Nat × Bool) :=
  st.child.map (fun c => (c.pid, false))

/-- Reap-to-spawn gap automaton over an effect trace: after a
`waitChild` it accumulates the sleeping done (`some ms`), and rejects
(`none`) a spawn that follows a reap with less than `graceMs`
milliseconds slept in between.  Running it to completion certifies that
the interval between a child's reap and the next spawn is at least
700 ms. -/
def gapTrack (acc : Option Nat) : Effect → Option (Option Nat)
  | .waitChild _ => some (some 0)
  | .sleepMs n => some (acc.map (· + n))
  | .spawned _ _ =>
      match acc with
      | some a => if graceMs ≤ a then some none else none
      | none => some none
  | _ => some acc

/-- `gapTrack` iterated over a trace. -/
def gapTrackRun (acc : Option Nat) : List Effect → Option (Option Nat)
  | [] => some acc
  | e :: rest =>
      match gapTrack acc e with
      | some acc' => gapTrackRun acc' rest
      | none => none

/-! ### Helper lemmas about single steps -/

theorem stepEvent_err (c : String) (st : LoopState) (e : String) (n : Nat)
    (sp : Option Nat) (k : Bool) :
    stepEvent c st ⟨RecvItem.err e, n, sp, k⟩ =
      ⟨[Effect.logMsg ("Watcher error: " ++ e)], none, StepOutcome.next st⟩ := rfl

theorem stepEvent_nonTrigger (c : String) (st : LoopState) (inp : IterInput)
    (kind : EventKind) (hi : inp.item = RecvItem.ok kind)
    (ht : kind.isTrigger = false) :
    stepEvent c st inp = ⟨[], none, StepOutcome.next st⟩ := by
  simp [stepEvent, hi, ht]

theorem stepEvent_reject (c : String) (st : LoopState) (inp : IterInput)
    (kind : EventKind) (hi : inp.item = RecvItem.ok kind)
    (ht : kind.isTrigger = true)
    (hr : debounceReject st.lastEvent inp.now = true) :
    stepEvent c st inp = ⟨[], none, StepOutcome.next st⟩ := by
  simp [stepEvent, hi, ht, hr]

theorem stepEvent_accept (c : String) (st : LoopState) (inp : IterInput)
    (kind : EventKind) (hi : inp.item = RecvItem.ok kind)
    (ht : kind.isTrigger = true)
    (hr : debounceReject st.lastEvent inp.now = false) :
    stepEvent c st inp = acceptStep c st inp := by
  simp [stepEvent, hi, ht, hr]

theorem debounceReject_false_iff (le : Option Nat) (now : Nat) :
    debounceReject le now = false ↔
      (le = none ∨ ∃ t, le = some t ∧ debounceMs ≤ now - t) := by
  cases le with
  | none => simp [debounceReject]
  | some t => simp [debounceReject, Nat.not_lt]

theorem acceptStep_acceptedAt (c : String) (st : LoopState) (inp : IterInput) :
    (acceptStep c st inp).acceptedAt = some inp.now := by
  cases hsp : inp.spawnResult <;> simp [acceptStep, hsp]

theorem acceptStep_outcome_none (c : String) (st : LoopState) (inp : IterInput)
    (hsp : inp.spawnResult = none) :
    (acceptStep c st inp).outcome = StepOutcome.fail := by
  simp [acceptStep, hsp]

theorem acceptStep_outcome_some (c : String) (st : LoopState) (inp : IterInput)
    (pid : Nat) (hsp : inp.spawnResult = some pid) :
    (acceptStep c st inp).outcome =
      StepOutcome.next ⟨some inp.now, some ⟨pid⟩⟩ := by
  simp [acceptStep, hsp]

/-! ### Helper lemmas about the run loop -/

theorem runLoop_cons_next (c : String) (st st' : LoopState) (inp : IterInput)
    (rest : List IterInput)
    (h : (stepEvent c st inp).outcome = StepOutcome.next st') :
    runLoop c st (inp :: rest) =
      ⟨(stepEvent c st inp).effects ++ (runLoop c st' rest).effects,
       (stepEvent c st inp).acceptedAt.toList ++ (runLoop c st' rest).accepted,
       (runLoop c st' rest).consumed + 1,
       (runLoop c st' rest).outcome⟩ := by
  rcases hse : stepEvent c st inp with ⟨effs, acc, out⟩
  rw [hse] at h
  cases out with
  | fail => exact absurd h (by simp)
  | next st'' =>
    cases h
    simp [runLoop, hse]

theorem runLoop_cons_fail (c : String) (st : LoopState) (inp : IterInput)
    (rest : List IterInput)
    (h : (stepEvent c st inp).outcome = StepOutcome.fail) :
    runLoop c st (inp :: rest) =
      ⟨(stepEvent c st inp).effects,
       (stepEvent c st inp).acceptedAt.toList, 1, RunOutcome.spawnFailed⟩ := by
  rcases hse : stepEvent c st inp with ⟨effs, acc, out⟩
  rw [hse] at h
  cases out with
  | fail => simp [runLoop, hse]
  | next st'' => exact absurd h (by simp)

theorem runLoop_accepted_chain (c : String) :
    ∀ (inputs : List IterInput) (st : LoopState),
      List.Chain' (fun a b => a + debounceMs ≤ b)
        (st.lastEvent.toList ++ (runLoop c st inputs).accepted) := by
  intro inputs
  induction inputs with
  | nil =>
    intro st
    cases st.lastEvent <;> simp [runLoop]
  | cons inp rest ih =>
    intro st
    cases hi : inp.item with
    | err e =>
      have hs : stepEvent c st inp =
          ⟨[Effect.logMsg ("Watcher error: " ++ e)], none, StepOutcome.next st⟩ := by
        simp [stepEvent, hi]
      rw [runLoop_cons_next c st st inp rest (by rw [hs])]
      simpa [hs] using ih st
    | ok kind =>
      cases ht : kind.isTrigger with
      | false =>
        have hs := stepEvent_nonTrigger c st inp kind hi ht
        rw [runLoop_cons_next c st st inp rest (by rw [hs])]
        simpa [hs] using ih st
      | true =>
        cases hr : debounceReject st.lastEvent inp.now with
        | true =>
          have hs := stepEvent_reject c st inp kind hi ht hr
          rw [runLoop_cons_next c st st inp rest (by rw [hs])]
          simpa [hs] using ih st
        | false =>
          have hs := stepEvent_accept c st inp kind hi ht hr
          cases hsp : inp.spawnResult with
          | none =>
            rw [runLoop_cons_fail c st inp rest
              (by rw [hs]; exact acceptStep_outcome_none c st inp hsp)]
            rw [hs, acceptStep_acceptedAt]
            cases hle : st.lastEvent with
            | none => simp
            | some t =>
              rw [hle] at hr
              simp only [debounceReject, debounceMs, decide_eq_false_iff_not,
                Nat.not_lt] at hr
              simp only [Option.toList_some, List.cons_append, List.nil_append,
                List.chain'_cons, List.chain'_singleton, and_true]
              show t + debounceMs ≤ inp.now
              simp only [debounceMs]
              omega
          | some pid =>
            rw [runLoop_cons_next c st ⟨some inp.now, some ⟨pid⟩⟩ inp rest
              (by rw [hs]; exact acceptStep_outcome_some c st inp pid hsp)]
            rw [hs, acceptStep_acceptedAt]
            have ihs := ih ⟨some inp.now, some ⟨pid⟩⟩
            cases hle : st.lastEvent with
            | none => simpa using ihs
            | some t =>
              rw [hle] at hr
              simp only [debounceReject, debounceMs, decide_eq_false_iff_not,
                Nat.not_lt] at hr
              simp only [Option.toList_some, List.cons_append, List.nil_append,
                List.chain'_cons] at ihs ⊢
              refine ⟨?_, by simpa using ihs⟩
              show t + debounceMs ≤ inp.now
              simp only [debounceMs]
              omega

/-! ### Child-accounting automaton lemmas -/

theorem childTrackRun_append :
    ∀ (a b : List Effect) (cur : Option (Nat × Bool)),
      childTrackRun cur (a ++ b) =
        (childTrackRun cur a).bind (fun c' => childTrackRun c' b) := by
  intro a
  induction a with
  | nil => intro b cur; simp [childTrackRun]
  | cons e rest ih =>
    intro b cur
    simp only [List.cons_append, childTrackRun]
    cases childTrack cur e <;> simp [ih]

theorem childTrack_step (c : String) (st : LoopState) (inp : IterInput) :
    childTrackRun (childAbs st) (stepEvent c st inp).effects =
      some (match (stepEvent c st inp).outcome with
            | StepOutcome.next st' => childAbs st'
            | StepOutcome.fail => none) := by
  cases hi : inp.item with
  | err e => simp [stepEvent, hi, childTrackRun, childTrack]
  | ok kind =>
    cases ht : kind.isTrigger with
    | false => simp [stepEvent, ht, hi, childTrackRun]
    | true =>
      cases hr : debounceReject st.lastEvent inp.now with
      | true => simp [stepEvent, ht, hi, hr, childTrackRun]
      | false =>
        cases hc : st.child with
        | none =>
          cases hsp : inp.spawnResult with
          | none =>
            simp [stepEvent, ht, hi, hr, acceptStep, hc, hsp,
              childTrackRun, childTrack, childAbs]
          | some pid =>
            simp [stepEvent, ht, hi, hr, acceptStep, hc, hsp,
              childTrackRun, childTrack, childAbs]
        | some ch =>
          cases hsp : inp.spawnResult with
          | none =>
            simp [stepEvent, ht, hi, hr, acceptStep, hc, hsp,
              childTrackRun, childTrack, childAbs]
          | some pid =>
            simp [stepEvent, ht, hi, hr, acceptStep, hc, hsp,
              childTrackRun, childTrack, childAbs]

theorem childTrack_run (c : String) :
    ∀ (inputs : List IterInput) (st : LoopState),
      (childTrackRun (childAbs st) (runLoop c st inputs).effects).isSome = true := by
  intro inputs
  induction inputs with
  | nil => intro st; simp [runLoop, childTrackRun]
  | cons inp rest ih =>
    intro st
    have hstep := childTrack_step c st inp
    cases ho : (stepEvent c st inp).outcome with
    | fail =>
      rw [runLoop_cons_fail c st inp rest ho]
      rw [ho] at hstep
      simp [hstep]
    | next st' =>
      rw [runLoop_cons_next c st st' inp rest ho]
      rw [ho] at hstep
      simp only [childTrackRun_append, hstep, Option.bind_some]
      exact ih st'

/-! ### Reap-to-spawn gap automaton lemmas -/

theorem gapTrackRun_append :
    ∀ (a b : List Effect) (acc : Option Nat),
      gapTrackRun acc (a ++ b) =
        (gapTrackRun acc a).bind (fun a' => gapTrackRun a' b) := by
  intro a
  induction a with
  | nil => intro b acc; simp [gapTrackRun]
  | cons e rest ih =>
    intro b acc
    simp only [List.cons_append, gapTrackRun]
    cases gapTrack acc e <;> simp [ih]

theorem gapTrack_step (c : String) (st : LoopState) (inp : IterInput) :
    (gapTrackRun none (stepEvent c st inp).effects).isSome = true ∧
    (∀ st', (stepEvent c st inp).outcome = StepOutcome.next st' →
       gapTrackRun none (stepEvent c st inp).effects = some none) := by
  cases hi : inp.item with
  | err e => simp [stepEvent, hi, gapTrackRun, gapTrack]
  | ok kind =>
    cases ht : kind.isTrigger with
    | false => simp [stepEvent, ht, hi, gapTrackRun]
    | true =>
      cases hr : debounceReject st.lastEvent inp.now with
      | true => simp [stepEvent, ht, hi, hr, gapTrackRun]
      | false =>
        cases hc : st.child with
        | none =>
          cases hsp : inp.spawnResult with
          | none =>
            simp [stepEvent, ht, hi, hr, acceptStep, hc, hsp,
              gapTrackRun, gapTrack]
          | some pid =>
            simp [stepEvent, ht, hi, hr, acceptStep, hc, hsp,
              gapTrackRun, gapTrack]
        | some ch =>
          cases hsp : inp.spawnResult with
          | none =>
            simp [stepEvent, ht, hi, hr, acceptStep, hc, hsp,
              gapTrackRun, gapTrack]
          | some pid =>
            simp [stepEvent, ht, hi, hr, acceptStep, hc, hsp,
              gapTrackRun, gapTrack, graceMs]

theorem gapTrack_run (c : String) :
    ∀ (inputs : List IterInput) (st : LoopState),
      (gapTrackRun none (runLoop c st inputs).effects).isSome = true := by
  intro inputs
  induction inputs with
  | nil => intro st; simp [runLoop, gapTrackRun]
  | cons inp rest ih =>
    intro st
    cases ho : (stepEvent c st inp).outcome with
    | fail =>
      rw [runLoop_cons_fail c st inp rest ho]
      exact (gapTrack_step c st inp).1
    | next st' =>
      rw [runLoop_cons_next c st st' inp rest ho]
      simp only [gapTrackRun_append, (gapTrack_step c st inp).2 st' ho,
        Option.bind_some]
      exact ih st'

/-! ### Assorted helper lemmas -/

theorem u32ToI32_small (n : Nat) (h : n < 2 ^ 31) : u32ToI32 n = (n : Int) := by
  have h32 : n < 2 ^ 32 := lt_trans h (by norm_num)
  simp only [u32ToI32, Nat.mod_eq_of_lt h32]
  rw [if_pos h]

theorem stepEvent_killOk_irrel (c : String) (st : LoopState) (item : RecvItem)
    (now : Nat) (sp : Option Nat) (b₁ b₂ : Bool) :
    stepEvent c st ⟨item, now, sp, b₁⟩ = stepEvent c st ⟨item, now, sp, b₂⟩ := rfl

theorem stepEvent_acceptedAt_iff (c : String) (st : LoopState) (inp : IterInput)
    (kind : EventKind) (hi : inp.item = RecvItem.ok kind)
    (ht : kind.isTrigger = true) :
    (stepEvent c st inp).acceptedAt = some inp.now ↔
      debounceReject st.lastEvent inp.now = false := by
  cases hr : debounceReject st.lastEvent inp.now with
  | true => rw [stepEvent_reject c st inp kind hi ht hr]; simp
  | false => rw [stepEvent_accept c st inp kind hi ht hr, acceptStep_acceptedAt]; simp

theorem spawned_spec_step (c : String) (st : LoopState) (inp : IterInput)
    (spec : SpawnSpec) (p : Nat)
    (hmem : Effect.spawned spec p ∈ (stepEvent c st inp).effects) :
    spec = spawnCommand c := by
  cases hi : inp.item with
  | err e => simp [stepEvent, hi] at hmem
  | ok kind =>
    cases ht : kind.isTrigger with
    | false => rw [stepEvent_nonTrigger c st inp kind hi ht] at hmem; simp at hmem
    | true =>
      cases hr : debounceReject st.lastEvent inp.now with
      | true => rw [stepEvent_reject c st inp kind hi ht hr] at hmem; simp at hmem
      | false =>
        rw [stepEvent_accept c st inp kind hi ht hr] at hmem
        cases hc : st.child with
        | none =>
          cases hsp : inp.spawnResult with
          | none => simp [acceptStep, hc, hsp] at hmem
          | some pid =>
            simp [acceptStep, hc, hsp] at hmem
            exact hmem.1
        | some ch =>
          cases hsp : inp.spawnResult with
          | none => simp [acceptStep, hc, hsp] at hmem
          | some pid =>
            simp [acceptStep, hc, hsp] at hmem
            exact hmem.1

theorem spawned_spec_run (c : String) :
    ∀ (inputs : List IterInput) (st : LoopState) (spec : SpawnSpec) (p : Nat),
      Effect.spawned spec p ∈ (runLoop c st inputs).effects →
      spec = spawnCommand c := by
  intro inputs
  induction inputs with
  | nil => intro st spec p hmem; simp [runLoop] at hmem
  | cons inp rest ih =>
    intro st spec p hmem
    cases ho : (stepEvent c st inp).outcome with
    | fail =>
      rw [runLoop_cons_fail c st inp rest ho] at hmem
      exact spawned_spec_step c st inp spec p hmem
    | next st' =>
      rw [runLoop_cons_next c st st' inp rest ho] at hmem
      rcases List.mem_append.mp hmem with h | h
      · exact spawned_spec_step c st inp spec p h
      · exact ih st' spec p h

theorem runLoop_failed_append (c : String) :
    ∀ (inputs more : List IterInput) (st : LoopState),
      (runLoop c st inputs).outcome = RunOutcome.spawnFailed →
      runLoop c st (inputs ++ more) = runLoop c st inputs := by
  intro inputs
  induction inputs with
  | nil => intro more st h; simp [runLoop] at h
  | cons inp rest ih =>
    intro more st h
    cases ho : (stepEvent c st inp).outcome with
    | fail =>
      rw [List.cons_append, runLoop_cons_fail c st inp (rest ++ more) ho,
        runLoop_cons_fail c st inp rest ho]
    | next st' =>
      rw [runLoop_cons_next c st st' inp rest ho] at h
      simp only at h
      rw [List.cons_append, runLoop_cons_next c st st' inp (rest ++ more) ho,
        runLoop_cons_next c st st' inp rest ho, ih more st' h]

theorem runLoop_closed_consumed (c : String) :
    ∀ (inputs : List IterInput) (st st' : LoopState),
      (runLoop c st inputs).outcome = RunOutcome.closed st' →
      (runLoop c st inputs).consumed = inputs.length := by
  intro inputs
  induction inputs with
  | nil => intro st st' _; simp [runLoop]
  | cons inp rest ih =>
    intro st st' h
    cases ho : (stepEvent c st inp).outcome with
    | fail =>
      rw [runLoop_cons_fail c st inp rest ho] at h
      simp at h
    | next st'' =>
      rw [runLoop_cons_next c st st'' inp rest ho] at h ⊢
      simp only at h ⊢
      rw [ih st'' st' h, List.length_cons]

/-! ### Claim theorems -/

/-- Claim C1: the debounce filter accepts a trigger candidate if and only
if no prior accepted trigger exists or at least 8000 ms elapsed since the
last accepted trigger; on acceptance the current instant becomes the new
last-accepted timestamp; and in every run the list of accepted trigger
instants is 8000 ms-separated, so at most one accepted trigger falls in
any 8000 ms window measured from the previous accepted trigger. -/
theorem debounce_accept_iff_and_window
    (cmd : String) (st : LoopState) (inp : IterInput) (kind : EventKind)
    (hi : inp.item = RecvItem.ok kind) (ht : kind.isTrigger = true) :
    ((stepEvent cmd st inp).acceptedAt = some inp.now ↔
       (st.lastEvent = none ∨ ∃ t, st.lastEvent = some t ∧ 8000 ≤ inp.now - t))
    ∧ (∀ st', (stepEvent cmd st inp).outcome = StepOutcome.next st' →
         (stepEvent cmd st inp).acceptedAt = some inp.now →
         st'.lastEvent = some inp.now)
    ∧ (∀ inputs : List IterInput,
         List.Chain' (fun a b => a + 8000 ≤ b)
           (runLoop cmd ⟨none, none⟩ inputs).accepted) := by
  refine ⟨?_, ?_, ?_⟩
  · rw [stepEvent_acceptedAt_iff cmd st inp kind hi ht, debounceReject_false_iff]
    simp [debounceMs]
  · intro st' hout hacc
    cases hr : debounceReject st.lastEvent inp.now with
    | true =>
      rw [stepEvent_reject cmd st inp kind hi ht hr] at hacc
      simp at hacc
    | false =>
      rw [stepEvent_accept cmd st inp kind hi ht hr] at hout
      cases hsp : inp.spawnResult with
      | none =>
        rw [acceptStep_outcome_none cmd st inp hsp] at hout
        simp at hout
      | some pid =>
        rw [acceptStep_outcome_some cmd st inp pid hsp] at hout
        cases hout
        rfl
  · intro inputs
    have h := runLoop_accepted_chain cmd inputs ⟨none, none⟩
    simpa [debounceMs] using h

theorem debounce_accept_iff_and_window_witness :
    (stepEvent "c" ⟨none, none⟩
        ⟨RecvItem.ok EventKind.create, 0, some 5, true⟩).acceptedAt = some 0 :=
  (debounce_accept_iff_and_window "c" ⟨none, none⟩
      ⟨RecvItem.ok EventKind.create, 0, some 5, true⟩ EventKind.create rfl
      rfl).1.mpr (Or.inl rfl)

/-- Claim C2: at every point of every run started from the initial state
(no last event, no child) the child-accounting automaton never rejects:
at most one managed child is live at a time, and a spawn after a prior
child happens only after that child was sent the group termination signal
and was reaped. -/
theorem at_most_one_child_invariant (cmd : String) (inputs : List IterInput) :
    (childTrackRun none (runLoop cmd ⟨none, none⟩ inputs).effects).isSome = true := by
  have h := childTrack_run cmd inputs ⟨none, none⟩
  simpa [childAbs] using h

/-- Claim C3: on an accepted trigger with a live child whose pid fits in
a signed 32-bit integer, the step emits exactly: the detection log,
SIGTERM to the negated leader pid (the process group), the blocking reap
of the leader, a 700 ms sleep, the execution log, and the new spawn — in
that order; the outcome of the kill call is ignored; and in every run the
reap-to-spawn gap automaton certifies at least 700 ms of sleep between a
reap and the next spawn. -/
theorem terminate_signal_wait_grace
    (cmd : String) (st : LoopState) (inp : IterInput) (kind : EventKind)
    (ch : Child) (pid : Nat)
    (hi : inp.item = RecvItem.ok kind) (ht : kind.isTrigger = true)
    (hr : debounceReject st.lastEvent inp.now = false)
    (hc : st.child = some ch) (hpid : ch.pid < 2 ^ 31)
    (hsp : inp.spawnResult = some pid) :
    (stepEvent cmd st inp).effects =
      [Effect.logMsg "File change detected",
       Effect.sendSignal (-(ch.pid : Int)) Sig.SIGTERM,
       Effect.waitChild ch.pid,
       Effect.sleepMs 700,
       Effect.logMsg ("Executing: " ++ cmd),
       Effect.spawned (spawnCommand cmd) pid]
    ∧ (∀ b : Bool,
        stepEvent cmd st ⟨inp.item, inp.now, inp.spawnResult, b⟩ =
          stepEvent cmd st inp)
    ∧ (∀ (inputs : List IterInput) (st₀ : LoopState),
        (gapTrackRun none (runLoop cmd st₀ inputs).effects).isSome = true) := by
  refine ⟨?_, ?_, ?_⟩
  · rw [stepEvent_accept cmd st inp kind hi ht hr]
    simp [acceptStep, hc, hsp, graceMs, u32ToI32_small ch.pid hpid]
  · intro b
    cases inp with
    | mk item now sp k => exact stepEvent_killOk_irrel cmd st item now sp b k
  · exact fun inputs st₀ => gapTrack_run cmd inputs st₀

theorem terminate_signal_wait_grace_witness :
    (stepEvent "c" ⟨some 0, some ⟨5⟩⟩
        ⟨RecvItem.ok EventKind.modify, 9000, some 6, true⟩).effects =
      [Effect.logMsg "File change detected",
       Effect.sendSignal (-((5 : Nat) : Int)) Sig.SIGTERM,
       Effect.waitChild 5,
       Effect.sleepMs 700,
       Effect.logMsg ("Executing: " ++ "c"),
       Effect.spawned (spawnCommand "c") 6] :=
  (terminate_signal_wait_grace "c" ⟨some 0, some ⟨5⟩⟩
      ⟨RecvItem.ok EventKind.modify, 9000, some 6, true⟩ EventKind.modify
      ⟨5⟩ 6 rfl rfl (by decide) rfl (by decide) rfl).1

/-- Claim C4: an event whose kind is not Create, Modify or Remove is
discarded with no effects and no state change; an event of a trigger
kind proceeds to the debounce check and, when accepted, triggers the
restart (a spawn occurs, given the OS spawn succeeds). -/
theorem event_kind_filtering
    (cmd : String) (st : LoopState) (inp : IterInput) (kind : EventKind)
    (hi : inp.item = RecvItem.ok kind) :
    (kind.isTrigger = false →
       stepEvent cmd st inp = ⟨[], none, StepOutcome.next st⟩)
    ∧ (kind.isTrigger = true →
        debounceReject st.lastEvent inp.now = false →
        ∀ pid, inp.spawnResult = some pid →
          Effect.spawned (spawnCommand cmd) pid ∈ (stepEvent cmd st inp).effects) := by
  constructor
  · exact fun ht => stepEvent_nonTrigger cmd st inp kind hi ht
  · intro ht hr pid hsp
    rw [stepEvent_accept cmd st inp kind hi ht hr]
    cases hc : st.child <;> simp [acceptStep, hc, hsp]

theorem event_kind_filtering_witness :
    stepEvent "c" ⟨none, none⟩ ⟨RecvItem.ok EventKind.other, 0, some 5, true⟩ =
      ⟨[], none, StepOutcome.next ⟨none, none⟩⟩
    ∧ Effect.spawned (spawnCommand "c") 5 ∈
        (stepEvent "c" ⟨none, none⟩
          ⟨RecvItem.ok EventKind.create, 0, some 5, true⟩).effects :=
  ⟨(event_kind_filtering "c" ⟨none, none⟩
      ⟨RecvItem.ok EventKind.other, 0, some 5, true⟩ EventKind.other rfl).1 rfl,
   (event_kind_filtering "c" ⟨none, none⟩
      ⟨RecvItem.ok EventKind.create, 0, some 5, true⟩ EventKind.create rfl).2
      rfl rfl 5 rfl⟩

/-- Claim C5: an OS-level spawn failure makes the step fail, which makes
the whole run end with the spawn-failure outcome (the error propagates
out of the loop); the program's exit code is then 1, nonzero; and the
failure is never retried — inputs after the failure change nothing. -/
theorem spawn_failure_fatal
    (cmd : String) (st : LoopState) (inp : IterInput) (kind : EventKind)
    (inputs more : List IterInput) :
    (inp.item = RecvItem.ok kind → kind.isTrigger = true →
       debounceReject st.lastEvent inp.now = false →
       inp.spawnResult = none →
       (stepEvent cmd st inp).outcome = StepOutcome.fail)
    ∧ ((stepEvent cmd st inp).outcome = StepOutcome.fail →
        (runLoop cmd st (inp :: more)).outcome = RunOutcome.spawnFailed)
    ∧ ((runLoop cmd st inputs).outcome = RunOutcome.spawnFailed →
        runLoop cmd st (inputs ++ more) = runLoop cmd st inputs)
    ∧ exitCodeOf RunOutcome.spawnFailed = 1 := by
  refine ⟨?_, ?_, ?_, rfl⟩
  · intro hi ht hr hsp
    rw [stepEvent_accept cmd st inp kind hi ht hr]
    exact acceptStep_outcome_none cmd st inp hsp
  · intro h
    rw [runLoop_cons_fail cmd st inp more h]
  · exact fun h => runLoop_failed_append cmd inputs more st h

theorem spawn_failure_fatal_witness :
    (stepEvent "c" ⟨none, none⟩
        ⟨RecvItem.ok EventKind.create, 0, none, true⟩).outcome = StepOutcome.fail
    ∧ (runLoop "c" ⟨none, none⟩
        (⟨RecvItem.ok EventKind.create, 0, none, true⟩ ::
          [⟨RecvItem.ok EventKind.create, 9000, some 7, true⟩])).outcome =
        RunOutcome.spawnFailed
    ∧ runLoop "c" ⟨none, none⟩
        ([⟨RecvItem.ok EventKind.create, 0, none, true⟩] ++
          [⟨RecvItem.ok EventKind.create, 9000, some 7, true⟩]) =
        runLoop "c" ⟨none, none⟩ [⟨RecvItem.ok EventKind.create, 0, none, true⟩]
    ∧ exitCodeOf RunOutcome.spawnFailed = 1 := by
  have h := spawn_failure_fatal "c" ⟨none, none⟩
    ⟨RecvItem.ok EventKind.create, 0, none, true⟩ EventKind.create
    [⟨RecvItem.ok EventKind.create, 0, none, true⟩]
    [⟨RecvItem.ok EventKind.create, 9000, some 7, true⟩]
  have hstep := h.1 rfl rfl rfl rfl
  exact ⟨hstep, h.2.1 hstep, h.2.2.1 (h.2.1 hstep), h.2.2.2⟩

/-- Claim C6: a run ends in the channel-closed outcome only after
consuming every channel item (the loop ends only when the channel closes
or a spawn fails); exit code 0 arises only from the channel-closed
outcome, never from a spawn failure, so under normal operation (channel
never closing) the process never exits with code 0. -/
theorem loop_exit_conditions
    (cmd : String) (st : LoopState) (inputs : List IterInput) :
    (∀ st', (runLoop cmd st inputs).outcome = RunOutcome.closed st' →
       (runLoop cmd st inputs).consumed = inputs.length)
    ∧ (exitCodeOf (runLoop cmd st inputs).outcome = 0 →
        ∃ st', (runLoop cmd st inputs).outcome = RunOutcome.closed st')
    ∧ ((runLoop cmd st inputs).outcome = RunOutcome.spawnFailed →
        exitCodeOf (runLoop cmd st inputs).outcome ≠ 0) := by
  refine ⟨?_, ?_, ?_⟩
  · exact fun st' h => runLoop_closed_consumed cmd inputs st st' h
  · intro h
    cases ho : (runLoop cmd st inputs).outcome with
    | closed st' => exact ⟨st', rfl⟩
    | spawnFailed => rw [ho] at h; simp [exitCodeOf] at h
  · intro ho
    rw [ho]
    simp [exitCodeOf]

theorem loop_exit_conditions_witness :
    (runLoop "c" (⟨none, none⟩ : LoopState) ([] : List IterInput)).consumed =
      ([] : List IterInput).length
    ∧ (∃ st', (runLoop "c" (⟨none, none⟩ : LoopState)
        ([] : List IterInput)).outcome = RunOutcome.closed st')
    ∧ exitCodeOf (runLoop "c" ⟨none, none⟩
        [⟨RecvItem.ok EventKind.create, 0, none, true⟩]).outcome ≠ 0 :=
  ⟨(loop_exit_conditions "c" ⟨none, none⟩ []).1 ⟨none, none⟩ rfl,
   (loop_exit_conditions "c" ⟨none, none⟩ []).2.1 rfl,
   (loop_exit_conditions "c" ⟨none, none⟩
      [⟨RecvItem.ok EventKind.create, 0, none, true⟩]).2.2 rfl⟩

/-- Claim C7: a trigger-kind event arriving less than 8000 ms after the
last accepted trigger is dropped with no side effects: no effects at
all, no accepted timestamp, and the loop state (last event time and
current child) returned unchanged. -/
theorem debounce_reject_no_side_effects
    (cmd : String) (st : LoopState) (inp : IterInput) (kind : EventKind) (t : Nat)
    (hi : inp.item = RecvItem.ok kind) (ht : kind.isTrigger = true)
    (hle : st.lastEvent = some t) (helapsed : inp.now - t < 8000) :
    stepEvent cmd st inp = ⟨[], none, StepOutcome.next st⟩ := by
  apply stepEvent_reject cmd st inp kind hi ht
  rw [hle]
  simp [debounceReject, debounceMs]
  exact helapsed

theorem debounce_reject_no_side_effects_witness :
    stepEvent "c" ⟨some 0, some ⟨5⟩⟩
        ⟨RecvItem.ok EventKind.remove, 100, some 9, true⟩ =
      ⟨[], none, StepOutcome.next ⟨some 0, some ⟨5⟩⟩⟩ :=
  debounce_reject_no_side_effects "c" ⟨some 0, some ⟨5⟩⟩
    ⟨RecvItem.ok EventKind.remove, 100, some 9, true⟩ EventKind.remove 0
    rfl rfl rfl (by decide)

/-- Claim C8: a watcher error delivered on the channel is non-fatal: the
step only logs it, leaves the state unchanged, and the loop continues
with the remaining items (accepted triggers and outcome are those of the
rest of the run). -/
theorem watcher_error_nonfatal
    (cmd : String) (st : LoopState) (e : String) (now : Nat)
    (sp : Option Nat) (k : Bool) (rest : List IterInput) :
    stepEvent cmd st ⟨RecvItem.err e, now, sp, k⟩ =
      ⟨[Effect.logMsg ("Watcher error: " ++ e)], none, StepOutcome.next st⟩
    ∧ runLoop cmd st (⟨RecvItem.err e, now, sp, k⟩ :: rest) =
        ⟨Effect.logMsg ("Watcher error: " ++ e) :: (runLoop cmd st rest).effects,
         (runLoop cmd st rest).accepted,
         (runLoop cmd st rest).consumed + 1,
         (runLoop cmd st rest).outcome⟩ := by
  refine ⟨rfl, ?_⟩
  rw [runLoop_cons_next cmd st st ⟨RecvItem.err e, now, sp, k⟩ rest rfl]
  simp [stepEvent]

/-- Claim C9: at startup, a missing command prints the usage text and
exits with code 1; zero directory arguments prints an error and exits
with code 1; and when some given path is not a directory, an error
naming a non-directory path is printed and the process exits with code
1 — all in `parseCli`, before any watching begins. -/
theorem cli_validation_exit_codes
    (argv : List String) (isDir : String → Bool) :
    (argv.drop 1 = [] → parseCli argv isDir = CliResult.exitWith 1 usageMsg)
    ∧ (∀ c, argv.drop 1 = [c] →
        parseCli argv isDir = CliResult.exitWith 1 noDirsMsg)
    ∧ (∀ c dirs, argv.drop 1 = c :: dirs →
        (∃ p ∈ dirs, isDir p = false) →
        ∃ q ∈ dirs, isDir q = false ∧
          parseCli argv isDir = CliResult.exitWith 1 (notDirMsg q)) := by
  refine ⟨?_, ?_, ?_⟩
  · intro h
    simp [parseCli, h]
  · intro c h
    simp [parseCli, h]
  · intro c dirs h hex
    have hfind : (dirs.find? (fun p => !isDir p)).isSome := by
      rw [List.find?_isSome]
      obtain ⟨p, hp, hpd⟩ := hex
      exact ⟨p, hp, by simp [hpd]⟩
    obtain ⟨q, hq⟩ := Option.isSome_iff_exists.mp hfind
    have hqd : isDir q = false := by
      have hpq := List.find?_some hq
      simpa using hpq
    have hqm : q ∈ dirs := List.mem_of_find?_eq_some hq
    refine ⟨q, hqm, hqd, ?_⟩
    have hne : dirs.isEmpty = false := by
      cases dirs with
      | nil => exact absurd hqm (List.not_mem_nil q)
      | cons a l => rfl
    simp [parseCli, h, hne, hq]

theorem cli_validation_exit_codes_witness :
    parseCli ["prog"] (fun _ => true) = CliResult.exitWith 1 usageMsg
    ∧ parseCli ["prog", "true"] (fun _ => true) = CliResult.exitWith 1 noDirsMsg
    ∧ (∃ q ∈ ["bad"], (fun _ => false) q = false ∧
        parseCli ["prog", "true", "bad"] (fun _ => false) =
          CliResult.exitWith 1 (notDirMsg q)) :=
  ⟨(cli_validation_exit_codes ["prog"] (fun _ => true)).1 rfl,
   (cli_validation_exit_codes ["prog", "true"] (fun _ => true)).2.1 "true" rfl,
   (cli_validation_exit_codes ["prog", "true", "bad"] (fun _ => false)).2.2
      "true" ["bad"] rfl ⟨"bad", by simp, rfl⟩⟩

/-- Claim C10: every spawn in every run uses exactly the interpreter
"/bin/sh" with arguments "-c" and the unmodified command string, with
inherited standard output and standard error, and a pre-exec hook
calling setpgid(0, 0) in the child between process creation and exec;
under POSIX setpgid semantics the child thus leads a new process group
whose id equals its own process id. -/
theorem spawn_spec_and_process_group
    (cmd : String) (st : LoopState) (inputs : List IterInput)
    (spec : SpawnSpec) (p : Nat)
    (hmem : Effect.spawned spec p ∈ (runLoop cmd st inputs).effects) :
    spec = spawnCommand cmd
    ∧ spec.program = "/bin/sh"
    ∧ spec.args = ["-c", cmd]
    ∧ spec.stdout = StreamCfg.inherit
    ∧ spec.stderr = StreamCfg.inherit
    ∧ spec.preExecSetpgidArgs = some (0, 0)
    ∧ setpgidResultPgid p 0 0 = p := by
  have h := spawned_spec_run cmd inputs st spec p hmem
  subst h
  exact ⟨rfl, rfl, rfl, rfl, rfl, rfl, rfl⟩

theorem spawn_spec_and_process_group_witness :
    spawnCommand "c" = spawnCommand "c"
    ∧ (spawnCommand "c").program = "/bin/sh"
    ∧ (spawnCommand "c").args = ["-c", "c"]
    ∧ (spawnCommand "c").stdout = StreamCfg.inherit
    ∧ (spawnCommand "c").stderr = StreamCfg.inherit
    ∧ (spawnCommand "c").preExecSetpgidArgs = some (0, 0)
    ∧ setpgidResultPgid 5 0 0 = 5 :=
  spawn_spec_and_process_group "c" ⟨none, none⟩
    [⟨RecvItem.ok EventKind.create, 0, some 5, true⟩] (spawnCommand "c") 5
    (by simp [runLoop, stepEvent, acceptStep, EventKind.isTrigger, debounceReject])

end RunOnFilechange
